import Mathlib

/-!
Shallow embedding of `tlsredis.go` (package tlsredis): a single routine
`GetClient` that parses a Redis URL, memoizes one `redis.Client` per
`host:port` in the process-wide map `rcs`, and builds a plain-TCP or TLS
dial function from the caller's options.

External collaborators (the Go standard library's `net/url.Parse`, the
filesystem reads done by `keyman.LoadCertificateFromFile` and
`tls.LoadX509KeyPair`, and the `redis.NewClient` constructor) are
parameters of the embedding: `getClient` receives the parse function and a
filesystem oracle, and client construction is modelled by recording the
`redis.Options` value passed to the constructor together with a fresh
identity (`nextId`), so that "the identical handle" and "number of handles
constructed" are expressible.
-/

deriving instance DecidableEq for Except

namespace Tlsredis

/-- Userinfo component of a parsed URL (`url.URL.User`): a username and an
optional password (`Userinfo.Password()` reports presence). -/
structure Userinfo where
  username : String
  password : Option String
deriving Repr, DecidableEq

/-- The result of `url.Parse` that `GetClient` inspects: `Scheme`, `Host`
(the `host:port` part), `Path`, and the optional `User` userinfo. -/
structure URL where
  scheme : String
  host : String
  path : String
  user : Option Userinfo
deriving Repr, DecidableEq

/-- `net.Dialer` with the two fields `GetClient` sets: `Timeout` and
`KeepAlive`, both `time.Duration` (int64 nanoseconds). -/
structure Dialer where
  timeout : Int
  keepAlive : Int
deriving Repr, DecidableEq

/-- An `x509.CertPool` produced by `keyman`'s `cert.PoolContainingCert()`:
a pool containing exactly the one loaded certificate (certificate contents
are opaque strings in this model). -/
structure CertPool where
  cert : String
deriving Repr, DecidableEq

/-- The `tls.Config` fields `GetClient` populates: the LRU client session
cache capacity, `RootCAs` (`none` = system default trust roots), and
`Certificates` (client identities for mutual authentication; a loaded
`tls.Certificate` is an opaque string in this model). -/
structure TLSConfig where
  sessionCacheCapacity : Nat
  rootCAs : Option CertPool
  certificates : List String
deriving Repr, DecidableEq

/-- The dial function stored into `opts.Dialer`: either the plain-TCP
closure `func() { return dialer.Dial("tcp", u.Host) }` (line 101) or the
TLS closure `func() { return tls.DialWithDialer(dialer, "tcp", u.Host,
tlsConfig) }` (line 133), represented by the data the closure captures. -/
inductive DialFunc where
  | plain (dialer : Dialer) (host : String)
  | tls (dialer : Dialer) (host : String) (config : TLSConfig)
deriving Repr, DecidableEq

/-- The base TCP dialer captured by a dial function. -/
def DialFunc.baseDialer : DialFunc → Dialer
  | .plain d _ => d
  | .tls d _ _ => d

/-- Whether the dial function performs a TLS handshake when invoked. -/
def DialFunc.isTLS : DialFunc → Bool
  | .plain _ _ => false
  | .tls _ _ _ => true

/-- The fields of the embedded `redis.Options` (gopkg.in/redis.v5) that
`GetClient` reads or writes: `PoolSize`, `Dialer`, `DB`, `Password`.
redis.v5 predates Redis ACLs: its `Options` struct has no username
field, and `GetClient` never calls `u.User.Username()`. -/
structure RedisLibOptions where
  poolSize : Int
  dialer : Option DialFunc
  db : Int
  password : String
deriving Repr, DecidableEq

/-- `tlsredis.Options`: the embedded `redis.Options` plus the package's own
fields. `GetClient` receives this by pointer, so the (possibly mutated)
options value is part of the result of the embedded function. -/
structure Options where
  options : RedisLibOptions
  redisURL : String
  redisCAFile : String
  clientPKFile : String
  clientCertFile : String
  dialTimeout : Int
  tcpKeepAlive : Int
deriving Repr, DecidableEq

/-- A `*redis.Client` handle: `redis.NewClient(&opts.Options)` copies the
options struct; `id` is the construction count at creation time, giving
each constructed handle a distinct identity. -/
structure Client where
  id : Nat
  options : RedisLibOptions
deriving Repr, DecidableEq

/-- The package-level mutable state: the registry map
`rcs = make(map[string]*redis.Client)` keyed by `u.Host`, plus the
number of clients constructed so far (`nextId`), used to give handles
their identity. The map is modelled as an association list where
insertion prepends; `List.lookup` returns the most recent binding, which
matches Go map assignment semantics observationally. -/
structure GoState where
  rcs : List (String × Client)
  nextId : Nat
deriving Repr, DecidableEq

/-- The filesystem oracle for the two certificate-loading collaborators:
`loadCertificateFromFile path` models `keyman.LoadCertificateFromFile`
(`none` = unreadable/unparsable), and `loadX509KeyPair certFile keyFile`
models `tls.LoadX509KeyPair` (argument order as in the Go call at line
126: certificate file first, then private-key file). -/
structure FS where
  loadCertificateFromFile : String → Option String
  loadX509KeyPair : String → String → Option String

/-- The error outcomes of `GetClient`, one per `return nil, ...` site. -/
inductive GetClientErr where
  | parseError (msg : String)
  | missingHost
  | caFileError
  | keyPairError
deriving Repr, DecidableEq

/-- ASCII model of `strings.EqualFold`: equality after lowering ASCII
letters. (Go's EqualFold does Unicode simple folding; on ASCII input,
which is all this code compares, the two coincide.) -/
def toLowerAscii (c : Char) : Char :=
  if 'A' ≤ c ∧ c ≤ 'Z' then Char.ofNat (c.toNat + 32) else c

def equalFold (a b : String) : Bool :=
  a.data.map toLowerAscii = b.data.map toLowerAscii

/-- Scan of a character list keeping only what follows the last slash. -/
def lastSegAux : List Char → List Char → List Char
  | [], acc => acc
  | c :: cs, acc => if c = '/' then lastSegAux cs [] else lastSegAux cs (acc ++ [c])

/-- The `file` component of Go's `path.Split(p)`: everything after the
final slash (the whole string when there is no slash). -/
def pathSplitFile (p : String) : String :=
  String.mk (lastSegAux p.data [])

/-- `strconv.Atoi`: optional sign, then one or more ASCII digits, nothing
else; the value must fit in int64 (`Atoi` = `ParseInt(s, 10, 0)`, which
reports a range error on overflow). Returns `none` where Go returns a
non-nil error. -/
def atoi (s : String) : Option Int :=
  match s.data with
  | [] => none
  | c :: rest =>
    let (neg, digits) :=
      if c = '-' then (true, rest)
      else if c = '+' then (false, rest)
      else (false, c :: rest)
    if digits = [] then none
    else if digits.all (fun d => d.isDigit) then
      let n : Nat := digits.foldl (fun acc d => acc * 10 + (d.toNat - 48)) 0
      let v : Int := if neg then -(n : Int) else (n : Int)
      if v < -(2 ^ 63) ∨ (2 ^ 63 - 1 : Int) < v then none else some v
    else none

/-- `30 * time.Second` in nanoseconds. -/
def thirtySeconds : Int := 30 * 1000000000

/-- Lines 74-77: `// Setting default PoolSize to 3.` — when the caller's
`PoolSize` is 0, `GetClient` writes 3 into it (through the pointer). -/
def poolDefault (opts : Options) : Options :=
  if opts.options.poolSize = 0 then { opts with options.poolSize := 3 } else opts

/-- Lines 79-89: the database number. `db := 0`; when the URL path is
non-empty, the `file` part of `path.Split` is fed to `strconv.Atoi`; on
success its value (which may be negative) replaces 0, on error the code
only logs and keeps 0. -/
def dbFromPath (p : String) : Int :=
  if p.length > 0 then (atoi (pathSplitFile p)).getD 0 else 0

/-- Lines 92-99: the base `net.Dialer` with `Timeout := opts.DialTimeout`
and `KeepAlive := opts.TCPKeepAlive`, then `Timeout` defaulted to 30
seconds when it is 0. -/
def baseDialerOf (opts : Options) : Dialer :=
  let d : Dialer := { timeout := opts.dialTimeout, keepAlive := opts.tcpKeepAlive }
  if d.timeout = 0 then { d with timeout := thirtySeconds } else d

/-- Lines 107-120: the `tls.Config` as left by the root-CA step. Start
from a config with an LRU session cache of capacity 1000 and no custom
roots; if `RedisCAFile` is set, load it (`keyman.LoadCertificateFromFile`)
and install its single-certificate pool as `RootCAs`; `none` models the
`Unable to load RedisCAFile` early return. -/
def caStep (fs : FS) (opts : Options) : Option TLSConfig :=
  let cfg0 : TLSConfig :=
    { sessionCacheCapacity := 1000, rootCAs := none, certificates := [] }
  if opts.redisCAFile = "" then some cfg0
  else
    match fs.loadCertificateFromFile opts.redisCAFile with
    | none => none
    | some cert => some { cfg0 with rootCAs := some { cert := cert } }

/-- Lines 122-131: the client-authentication step. When either of
`ClientPKFile`/`ClientCertFile` is empty, client TLS authentication is
silently skipped; otherwise the pair is loaded
(`tls.LoadX509KeyPair(certFile, pkFile)`) into `Certificates`; `none`
models the `Unable to load Client certificate/key pair` early return. -/
def pairStep (fs : FS) (opts : Options) (cfg1 : TLSConfig) : Option TLSConfig :=
  if opts.clientPKFile = "" ∨ opts.clientCertFile = "" then some cfg1
  else
    match fs.loadX509KeyPair opts.clientCertFile opts.clientPKFile with
    | none => none
    | some kp => some { cfg1 with certificates := [kp] }

/-- Lines 107-131: populate the `tls.Config` by the root-CA step then the
client-authentication step, propagating each step's fatal error. -/
def buildTLSConfig (fs : FS) (opts : Options) : Except GetClientErr TLSConfig :=
  match caStep fs opts with
  | none => .error .caFileError
  | some cfg1 =>
    match pairStep fs opts cfg1 with
    | none => .error .keyPairError
    | some cfg2 => .ok cfg2

/-- Lines 138-143, the mutations of `opts.Options` after the dial function
is chosen: write `opts.Dialer` and `opts.DB`; if the URL has userinfo,
overwrite `opts.Password` with the URL password (empty string when the
userinfo carries no password, per `redisPass, _ := u.User.Password()`). -/
def finishOptions (u : URL) (db : Int) (df : DialFunc)
    (o : RedisLibOptions) : RedisLibOptions :=
  let o2 := { o with dialer := some df, db := db }
  match u.user with
  | some ui => { o2 with password := ui.password.getD "" }
  | none => o2

/-- Lines 138-147, the tail of `GetClient` after the dial function is
chosen: apply the `finishOptions` mutations, construct the client from
`opts.Options` (`redis.NewClient(&opts.Options)` copies the struct), do
the registry insertion `rcs[u.Host] = rc` (line 146), and return it. -/
def finishClient (st : GoState) (u : URL) (db : Int) (df : DialFunc)
    (opts : Options) : Except GetClientErr Client × GoState × Options :=
  let opts3 := { opts with options := finishOptions u db df opts.options }
  let rc : Client := { id := st.nextId, options := opts3.options }
  (.ok rc, { rcs := (u.host, rc) :: st.rcs, nextId := st.nextId + 1 }, opts3)

/-- `GetClient(opts *Options) (*redis.Client, error)`, embedded. `parse`
is `url.Parse` and `fs` the filesystem oracle; the result carries the
return value, the updated package state, and the caller's options struct
as left by the call (the Go code mutates it through the pointer; in
particular the two TLS error returns happen after the PoolSize default
has been applied, so they return the pool-defaulted options). -/
def getClient (parse : String → Except String URL) (fs : FS)
    (st : GoState) (opts : Options) :
    Except GetClientErr Client × GoState × Options :=
  match parse opts.redisURL with
  | .error e => (.error (.parseError e), st, opts)
  | .ok u =>
    if u.host = "" then
      (.error .missingHost, st, opts)
    else
      match st.rcs.lookup u.host with
      | some rc => (.ok rc, st, opts)
      | none =>
        let opts1 := poolDefault opts
        let db := dbFromPath u.path
        let dialer := baseDialerOf opts1
        if equalFold u.scheme "rediss" then
          match buildTLSConfig fs opts1 with
          | .error e => (.error e, st, opts1)
          | .ok cfg => finishClient st u db (DialFunc.tls dialer u.host cfg) opts1
        else
          finishClient st u db (DialFunc.plain dialer u.host) opts1

/-! Accessors over a `getClient` result, used to state the claims without
existential quantifiers. -/

/-- Whether the call returned a client (`err == nil`). -/
def resultOk (r : Except GetClientErr Client × GoState × Options) : Bool :=
  match r.1 with
  | .ok _ => true
  | .error _ => false

/-- The dial function of the returned client, when the call succeeded. -/
def dialFuncOf (r : Except GetClientErr Client × GoState × Options) :
    Option DialFunc :=
  match r.1 with
  | .ok rc => rc.options.dialer
  | .error _ => none

/-- The client-certificate list of the returned client's TLS config, when
the call succeeded with a TLS dial function. -/
def tlsCertsOf (r : Except GetClientErr Client × GoState × Options) :
    Option (List String) :=
  match dialFuncOf r with
  | some (.tls _ _ cfg) => some cfg.certificates
  | _ => none

/-- The `RootCAs` field of the returned client's TLS config, when the call
succeeded with a TLS dial function (`some none` = system default roots). -/
def rootCAsOf (r : Except GetClientErr Client × GoState × Options) :
    Option (Option CertPool) :=
  match dialFuncOf r with
  | some (.tls _ _ cfg) => some cfg.rootCAs
  | _ => none

/-- The database index of the returned client, when the call succeeded. -/
def dbOf (r : Except GetClientErr Client × GoState × Options) : Option Int :=
  match r.1 with
  | .ok rc => some rc.options.db
  | .error _ => none

/-- The password of the returned client, when the call succeeded. -/
def passwordOf (r : Except GetClientErr Client × GoState × Options) :
    Option String :=
  match r.1 with
  | .ok rc => some rc.options.password
  | .error _ => none

/-! Interleaving model of two concurrent `GetClient` calls for the same
host. `GetClient`'s only interactions with the shared package state are
the registry read `rcs[u.Host]` (line 70) and, on a miss, the construction
`redis.NewClient` plus the registry write `rcs[u.Host] = rc` (lines
145-146); the code takes no lock around this check-then-insert sequence,
and Go gives no atomicity guarantee across the two statements. A thread is
therefore modelled with two atomic steps — observe the registry, then
either return the observed handle or construct-and-insert — and the URL
parsing and option/dialer configuration between them is thread-local. -/

/-- Program counter of one thread running `GetClient`'s shared-state
interactions: not yet at the lookup; lookup done with its result; or
returned, remembering whether this thread constructed a client. -/
inductive TPhase where
  | start
  | observed (found : Option Client)
  | finished (ret : Client) (constructed : Bool)
deriving Repr, DecidableEq

/-- One atomic step of a thread acquiring a client for `host`, whose
configuration work would pass `finalOpts` to the constructor: from
`start`, perform the registry lookup of line 70; from `observed (some rc)`,
return the cached handle (line 71); from `observed none`, construct a
fresh client and insert it (lines 145-146). Returns the updated registry,
construction counter, and thread phase. -/
def threadStep (host : String) (finalOpts : RedisLibOptions)
    (rcs : List (String × Client)) (nextId : Nat) (t : TPhase) :
    List (String × Client) × Nat × TPhase :=
  match t with
  | .start => (rcs, nextId, .observed (rcs.lookup host))
  | .observed (some rc) => (rcs, nextId, .finished rc false)
  | .observed none =>
    let rc : Client := { id := nextId, options := finalOpts }
    ((host, rc) :: rcs, nextId + 1, .finished rc true)
  | .finished r c => (rcs, nextId, .finished r c)

/-- Shared registry plus the phases of two threads. -/
structure RaceState where
  rcs : List (String × Client)
  nextId : Nat
  t1 : TPhase
  t2 : TPhase
deriving Repr, DecidableEq

/-- Run one step of the chosen thread (`true` = thread 1). -/
def raceStep (host : String) (f1 f2 : RedisLibOptions) (s : RaceState)
    (who : Bool) : RaceState :=
  if who then
    match threadStep host f1 s.rcs s.nextId s.t1 with
    | (rcs, n, t) => { rcs := rcs, nextId := n, t1 := t, t2 := s.t2 }
  else
    match threadStep host f2 s.rcs s.nextId s.t2 with
    | (rcs, n, t) => { rcs := rcs, nextId := n, t1 := s.t1, t2 := t }

/-- Run a schedule (an interleaving of the two threads' steps). -/
def runSched (host : String) (f1 f2 : RedisLibOptions) (sched : List Bool)
    (s : RaceState) : RaceState :=
  sched.foldl (raceStep host f1 f2) s

/-! Concrete instances used to evaluate the theorems on closed inputs. -/

/-- A parse oracle mapping every URL string to one fixed parsed URL. -/
def constParse (u : URL) : String → Except String URL :=
  fun _ => Except.ok u

/-- A filesystem on which every certificate load fails. -/
def fsNone : FS :=
  { loadCertificateFromFile := fun _ => none, loadX509KeyPair := fun _ _ => none }

/-- A filesystem holding a CA file "ca.pem" and a client pair
"cert.pem"/"key.pem". -/
def fsSample : FS :=
  { loadCertificateFromFile := fun p => if p = "ca.pem" then some "CACERT" else none,
    loadX509KeyPair := fun c k =>
      if c = "cert.pem" ∧ k = "key.pem" then some "CLIENTPAIR" else none }

/-- The empty registry state. -/
def emptyState : GoState := { rcs := [], nextId := 0 }

/-- Zeroed caller options (pool size unset, no files, zero durations). -/
def optsBase : Options :=
  { options := { poolSize := 0, dialer := none, db := 0, password := "" },
    redisURL := "u", redisCAFile := "", clientPKFile := "",
    clientCertFile := "", dialTimeout := 0, tcpKeepAlive := 0 }

/-- A plain-scheme URL with no path and no userinfo. -/
def urlPlain : URL := { scheme := "redis", host := "h:6379", path := "", user := none }

/-- The dialer produced from `optsBase` (timeout defaulted to 30s). -/
def dialerBase : Dialer := { timeout := 30000000000, keepAlive := 0 }

/-- The client that the first `getClient (constParse urlPlain) fsNone
emptyState optsBase` call constructs. -/
def clientPlain : Client :=
  { id := 0,
    options := { poolSize := 3,
                 dialer := some (DialFunc.plain dialerBase "h:6379"),
                 db := 0, password := "" } }

/-- The registry state after that first call. -/
def stateAfterPlain : GoState := { rcs := [("h:6379", clientPlain)], nextId := 1 }

/-- The caller's options as left by that first call. -/
def optsAfterPlain : Options := { optsBase with options := clientPlain.options }

/-- A second parsed URL for the same `host:port` as `urlPlain` but with a
different scheme, database suffix, and credentials. -/
def urlSecond : URL :=
  { scheme := "rediss", host := "h:6379", path := "/9",
    user := some { username := "alice", password := some "pw" } }

/-- A parse oracle mapping the URL string "u2" to `urlSecond` and every
other string to `urlPlain`. -/
def parseTwo : String → Except String URL :=
  fun s => if s = "u2" then Except.ok urlSecond else Except.ok urlPlain

/-- `optsBase` pointed at the second URL string. -/
def optsSecond : Options := { optsBase with redisURL := "u2" }

/-- A plain-scheme URL selecting database 2. -/
def urlDB2 : URL := { scheme := "redis", host := "h:6379", path := "/2", user := none }

/-- The client constructed for `urlDB2` from `optsBase`. -/
def clientDB2 : Client :=
  { id := 0,
    options := { poolSize := 3,
                 dialer := some (DialFunc.plain dialerBase "h:6379"),
                 db := 2, password := "" } }

/-- A plain-scheme URL whose final path segment is the integer -1. -/
def urlNegDB : URL := { scheme := "redis", host := "h:6379", path := "/-1", user := none }

/-- A URL with userinfo alice:pw. -/
def urlUserAlice : URL :=
  { scheme := "redis", host := "h:6379", path := "",
    user := some { username := "alice", password := some "pw" } }

/-- The same URL with the username changed to bob. -/
def urlUserBob : URL :=
  { scheme := "redis", host := "h:6379", path := "",
    user := some { username := "bob", password := some "pw" } }

/-- The client constructed for `urlUserAlice` from `optsBase`. -/
def clientAlice : Client :=
  { id := 0,
    options := { poolSize := 3,
                 dialer := some (DialFunc.plain dialerBase "h:6379"),
                 db := 0, password := "pw" } }

/-- An encrypted-scheme URL. -/
def urlTLS : URL := { scheme := "rediss", host := "h:6379", path := "", user := none }

/-- `optsBase` with a client key/certificate pair supplied. -/
def optsPair : Options :=
  { optsBase with clientPKFile := "key.pem", clientCertFile := "cert.pem" }

/-- `optsBase` with a CA file supplied. -/
def optsCA : Options := { optsBase with redisCAFile := "ca.pem" }

/-- A URL with a non-Redis scheme. -/
def urlHttp : URL := { scheme := "http", host := "h:6379", path := "", user := none }

/-- A URL with an empty scheme. -/
def urlNoScheme : URL := { scheme := "", host := "h:6379", path := "", user := none }

/-! Helper lemmas characterizing the branches of `getClient`. -/

theorem finishOptions_poolSize (u : URL) (db : Int) (df : DialFunc)
    (o : RedisLibOptions) : (finishOptions u db df o).poolSize = o.poolSize := by
  cases h : u.user <;> simp [finishOptions, h]

theorem finishOptions_dialer (u : URL) (db : Int) (df : DialFunc)
    (o : RedisLibOptions) : (finishOptions u db df o).dialer = some df := by
  cases h : u.user <;> simp [finishOptions, h]

theorem finishOptions_db (u : URL) (db : Int) (df : DialFunc)
    (o : RedisLibOptions) : (finishOptions u db df o).db = db := by
  cases h : u.user <;> simp [finishOptions, h]

theorem finishOptions_password (u : URL) (db : Int) (df : DialFunc)
    (o : RedisLibOptions) :
    (finishOptions u db df o).password =
      (match u.user with
       | some ui => ui.password.getD ""
       | none => o.password) := by
  cases h : u.user <;> simp [finishOptions, h]

theorem poolDefault_poolSize (opts : Options) :
    (poolDefault opts).options.poolSize =
      (if opts.options.poolSize = 0 then 3 else opts.options.poolSize) := by
  unfold poolDefault
  split <;> simp_all

theorem poolDefault_frame (opts : Options) :
    (poolDefault opts).redisURL = opts.redisURL ∧
    (poolDefault opts).redisCAFile = opts.redisCAFile ∧
    (poolDefault opts).clientPKFile = opts.clientPKFile ∧
    (poolDefault opts).clientCertFile = opts.clientCertFile ∧
    (poolDefault opts).dialTimeout = opts.dialTimeout ∧
    (poolDefault opts).tcpKeepAlive = opts.tcpKeepAlive ∧
    (poolDefault opts).options.dialer = opts.options.dialer ∧
    (poolDefault opts).options.db = opts.options.db ∧
    (poolDefault opts).options.password = opts.options.password := by
  unfold poolDefault
  split <;> simp

theorem baseDialerOf_poolDefault (opts : Options) :
    baseDialerOf (poolDefault opts) = baseDialerOf opts := by
  unfold baseDialerOf poolDefault
  split <;> simp

theorem getClient_hit (parse : String → Except String URL) (fs : FS)
    (st : GoState) (opts : Options) (u : URL) (rc : Client)
    (hp : parse opts.redisURL = Except.ok u)
    (hh : ¬ u.host = "")
    (hhit : st.rcs.lookup u.host = some rc) :
    getClient parse fs st opts = (.ok rc, st, opts) := by
  unfold getClient
  rw [hp]
  simp [hh, hhit]

theorem getClient_empty_host (parse : String → Except String URL) (fs : FS)
    (st : GoState) (opts : Options) (u : URL)
    (hp : parse opts.redisURL = Except.ok u)
    (hh : u.host = "") :
    getClient parse fs st opts = (.error .missingHost, st, opts) := by
  unfold getClient
  rw [hp]
  simp [hh]

theorem getClient_plain (parse : String → Except String URL) (fs : FS)
    (st : GoState) (opts : Options) (u : URL)
    (hp : parse opts.redisURL = Except.ok u)
    (hh : ¬ u.host = "")
    (hfresh : st.rcs.lookup u.host = none)
    (hs : equalFold u.scheme "rediss" = false) :
    getClient parse fs st opts =
      finishClient st u (dbFromPath u.path)
        (DialFunc.plain (baseDialerOf (poolDefault opts)) u.host)
        (poolDefault opts) := by
  unfold getClient
  rw [hp]
  simp [hh, hfresh, hs]

theorem getClient_tls (parse : String → Except String URL) (fs : FS)
    (st : GoState) (opts : Options) (u : URL) (cfg : TLSConfig)
    (hp : parse opts.redisURL = Except.ok u)
    (hh : ¬ u.host = "")
    (hfresh : st.rcs.lookup u.host = none)
    (hs : equalFold u.scheme "rediss" = true)
    (hcfg : buildTLSConfig fs (poolDefault opts) = Except.ok cfg) :
    getClient parse fs st opts =
      finishClient st u (dbFromPath u.path)
        (DialFunc.tls (baseDialerOf (poolDefault opts)) u.host cfg)
        (poolDefault opts) := by
  unfold getClient
  rw [hp]
  simp [hh, hfresh, hs, hcfg]

theorem getClient_tls_error (parse : String → Except String URL) (fs : FS)
    (st : GoState) (opts : Options) (u : URL) (e : GetClientErr)
    (hp : parse opts.redisURL = Except.ok u)
    (hh : ¬ u.host = "")
    (hfresh : st.rcs.lookup u.host = none)
    (hs : equalFold u.scheme "rediss" = true)
    (hcfg : buildTLSConfig fs (poolDefault opts) = Except.error e) :
    getClient parse fs st opts = (.error e, st, poolDefault opts) := by
  unfold getClient
  rw [hp]
  simp [hh, hfresh, hs, hcfg]

theorem getClient_construct_inv (parse : String → Except String URL) (fs : FS)
    (st : GoState) (opts : Options) (u : URL) (rc : Client) (st' : GoState)
    (o' : Options)
    (hp : parse opts.redisURL = Except.ok u)
    (hfresh : st.rcs.lookup u.host = none)
    (hok : getClient parse fs st opts = (.ok rc, st', o')) :
    rc.id = st.nextId ∧
    st' = { rcs := (u.host, rc) :: st.rcs, nextId := st.nextId + 1 } := by
  by_cases hh : u.host = ""
  · rw [getClient_empty_host parse fs st opts u hp hh] at hok
    simp at hok
  · cases hs : equalFold u.scheme "rediss" with
    | false =>
      rw [getClient_plain parse fs st opts u hp hh hfresh hs] at hok
      simp [finishClient] at hok
      obtain ⟨h1, h2, h3⟩ := hok
      subst h1 h2
      simp
    | true =>
      cases hcfg : buildTLSConfig fs (poolDefault opts) with
      | error e =>
        rw [getClient_tls_error parse fs st opts u e hp hh hfresh hs hcfg] at hok
        simp at hok
      | ok cfg =>
        rw [getClient_tls parse fs st opts u cfg hp hh hfresh hs hcfg] at hok
        simp [finishClient] at hok
        obtain ⟨h1, h2, h3⟩ := hok
        subst h1 h2
        simp

theorem finishClient_frame (st : GoState) (u : URL) (db : Int) (df : DialFunc)
    (opts : Options) :
    (finishClient st u db df opts).2.2.redisURL = opts.redisURL ∧
    (finishClient st u db df opts).2.2.redisCAFile = opts.redisCAFile ∧
    (finishClient st u db df opts).2.2.clientPKFile = opts.clientPKFile ∧
    (finishClient st u db df opts).2.2.clientCertFile = opts.clientCertFile ∧
    (finishClient st u db df opts).2.2.dialTimeout = opts.dialTimeout ∧
    (finishClient st u db df opts).2.2.tcpKeepAlive = opts.tcpKeepAlive ∧
    (finishClient st u db df opts).2.2.options = finishOptions u db df opts.options := by
  simp [finishClient]

theorem getClient_construct_shape (parse : String → Except String URL) (fs : FS)
    (st : GoState) (opts : Options) (u : URL) (rc : Client) (st' : GoState)
    (o' : Options)
    (hp : parse opts.redisURL = Except.ok u)
    (hfresh : st.rcs.lookup u.host = none)
    (hok : getClient parse fs st opts = (.ok rc, st', o')) :
    (equalFold u.scheme "rediss" = false →
      rc.options = finishOptions u (dbFromPath u.path)
        (DialFunc.plain (baseDialerOf (poolDefault opts)) u.host)
        (poolDefault opts).options) ∧
    (equalFold u.scheme "rediss" = true →
      ∃ cfg, buildTLSConfig fs (poolDefault opts) = Except.ok cfg ∧
        rc.options = finishOptions u (dbFromPath u.path)
          (DialFunc.tls (baseDialerOf (poolDefault opts)) u.host cfg)
          (poolDefault opts).options) := by
  by_cases hh : u.host = ""
  · rw [getClient_empty_host parse fs st opts u hp hh] at hok
    simp at hok
  · cases hs : equalFold u.scheme "rediss" with
    | false =>
      rw [getClient_plain parse fs st opts u hp hh hfresh hs] at hok
      simp [finishClient] at hok
      obtain ⟨h1, h2, h3⟩ := hok
      subst h1
      exact ⟨fun _ => rfl, fun htr => by simp at htr⟩
    | true =>
      cases hcfg : buildTLSConfig fs (poolDefault opts) with
      | error e =>
        rw [getClient_tls_error parse fs st opts u e hp hh hfresh hs hcfg] at hok
        simp at hok
      | ok cfg =>
        rw [getClient_tls parse fs st opts u cfg hp hh hfresh hs hcfg] at hok
        simp [finishClient] at hok
        obtain ⟨h1, h2, h3⟩ := hok
        subst h1
        exact ⟨fun hfa => by simp at hfa, fun _ => ⟨cfg, rfl, rfl⟩⟩

theorem dialFuncOf_finish (st : GoState) (u : URL) (db : Int) (df : DialFunc)
    (opts : Options) : dialFuncOf (finishClient st u db df opts) = some df := by
  simp [dialFuncOf, finishClient, finishOptions_dialer]

theorem resultOk_finish (st : GoState) (u : URL) (db : Int) (df : DialFunc)
    (opts : Options) : resultOk (finishClient st u db df opts) = true := by
  simp [resultOk, finishClient]

theorem tlsCertsOf_finish (st : GoState) (u : URL) (db : Int) (d : Dialer)
    (h : String) (cfg : TLSConfig) (opts : Options) :
    tlsCertsOf (finishClient st u db (DialFunc.tls d h cfg) opts) =
      some cfg.certificates := by
  simp [tlsCertsOf, dialFuncOf_finish]

theorem rootCAsOf_finish (st : GoState) (u : URL) (db : Int) (d : Dialer)
    (h : String) (cfg : TLSConfig) (opts : Options) :
    rootCAsOf (finishClient st u db (DialFunc.tls d h cfg) opts) =
      some cfg.rootCAs := by
  simp [rootCAsOf, dialFuncOf_finish]

theorem caStep_poolDefault (fs : FS) (opts : Options) :
    caStep fs (poolDefault opts) = caStep fs opts := by
  unfold caStep poolDefault
  split <;> simp

theorem pairStep_poolDefault (fs : FS) (opts : Options) (cfg : TLSConfig) :
    pairStep fs (poolDefault opts) cfg = pairStep fs opts cfg := by
  unfold pairStep poolDefault
  split <;> simp

theorem caStep_empty (fs : FS) (opts : Options) (h : opts.redisCAFile = "") :
    caStep fs opts =
      some { sessionCacheCapacity := 1000, rootCAs := none, certificates := [] } := by
  unfold caStep
  simp [h]

theorem caStep_loaded (fs : FS) (opts : Options) (c : String)
    (h : ¬ opts.redisCAFile = "")
    (hl : fs.loadCertificateFromFile opts.redisCAFile = some c) :
    caStep fs opts =
      some { sessionCacheCapacity := 1000, rootCAs := some { cert := c },
             certificates := [] } := by
  unfold caStep
  simp [h, hl]

theorem caStep_fail (fs : FS) (opts : Options)
    (h : ¬ opts.redisCAFile = "")
    (hl : fs.loadCertificateFromFile opts.redisCAFile = none) :
    caStep fs opts = none := by
  unfold caStep
  simp [h, hl]

theorem pairStep_skip (fs : FS) (opts : Options) (cfg : TLSConfig)
    (h : opts.clientPKFile = "" ∨ opts.clientCertFile = "") :
    pairStep fs opts cfg = some cfg := by
  unfold pairStep
  simp [h]

theorem pairStep_loaded (fs : FS) (opts : Options) (cfg : TLSConfig) (kp : String)
    (h1 : ¬ opts.clientPKFile = "") (h2 : ¬ opts.clientCertFile = "")
    (hl : fs.loadX509KeyPair opts.clientCertFile opts.clientPKFile = some kp) :
    pairStep fs opts cfg = some { cfg with certificates := [kp] } := by
  unfold pairStep
  simp [h1, h2, hl]

theorem pairStep_fail (fs : FS) (opts : Options) (cfg : TLSConfig)
    (h1 : ¬ opts.clientPKFile = "") (h2 : ¬ opts.clientCertFile = "")
    (hl : fs.loadX509KeyPair opts.clientCertFile opts.clientPKFile = none) :
    pairStep fs opts cfg = none := by
  unfold pairStep
  simp [h1, h2, hl]

theorem buildTLSConfig_ok (fs : FS) (opts : Options) (cfg1 cfg2 : TLSConfig)
    (h1 : caStep fs opts = some cfg1) (h2 : pairStep fs opts cfg1 = some cfg2) :
    buildTLSConfig fs opts = .ok cfg2 := by
  unfold buildTLSConfig
  rw [h1]
  simp [h2]

theorem buildTLSConfig_ca_err (fs : FS) (opts : Options)
    (h1 : caStep fs opts = none) :
    buildTLSConfig fs opts = .error .caFileError := by
  unfold buildTLSConfig
  rw [h1]

theorem buildTLSConfig_pair_err (fs : FS) (opts : Options) (cfg1 : TLSConfig)
    (h1 : caStep fs opts = some cfg1) (h2 : pairStep fs opts cfg1 = none) :
    buildTLSConfig fs opts = .error .keyPairError := by
  unfold buildTLSConfig
  rw [h1]
  simp [h2]

/-! The claims. -/

/-- C1: For every two sequential calls to `GetClient` whose URLs parse to
the same `host:port` (regardless of differing scheme, database suffix, or
credentials on the second call), the second call returns the identical
client handle that the first call returned and leaves the state and the
second caller's options untouched; exactly one client handle is
constructed across both calls (the construction counter rises by exactly
one), and the handle for that `host:port` is still registered after both
calls (never removed or replaced). -/
theorem getClient_second_call_returns_cached
    (parse : String → Except String URL) (fs : FS) (st st1 : GoState)
    (opts1 opts2 o1 : Options) (u1 u2 : URL) (rc : Client)
    (h1 : parse opts1.redisURL = Except.ok u1)
    (h2 : parse opts2.redisURL = Except.ok u2)
    (hhost : u2.host = u1.host)
    (hfresh : st.rcs.lookup u1.host = none)
    (hcall1 : getClient parse fs st opts1 = (.ok rc, st1, o1)) :
    getClient parse fs st1 opts2 = (.ok rc, st1, opts2) ∧
    st1.nextId = st.nextId + 1 ∧
    st1.rcs.lookup u2.host = some rc := by
  obtain ⟨hid, hst⟩ :=
    getClient_construct_inv parse fs st opts1 u1 rc st1 o1 h1 hfresh hcall1
  have hh1 : ¬ u1.host = "" := by
    intro hh
    rw [getClient_empty_host parse fs st opts1 u1 h1 hh] at hcall1
    simp at hcall1
  have hlook : st1.rcs.lookup u2.host = some rc := by
    subst hst
    simp [hhost, List.lookup]
  refine ⟨getClient_hit parse fs st1 opts2 u2 rc h2 (by rw [hhost]; exact hh1) hlook,
    ?_, hlook⟩
  rw [hst]

/-- C1 witness: first call on `urlPlain` (string "u") constructs
`clientPlain`; the second call, for a URL with the same `host:port` but a
different scheme, database suffix, and credentials, returns that exact
handle with no new construction. -/
theorem getClient_second_call_returns_cached_witness :
    getClient parseTwo fsNone stateAfterPlain optsSecond
      = (.ok clientPlain, stateAfterPlain, optsSecond) ∧
    stateAfterPlain.nextId = emptyState.nextId + 1 ∧
    stateAfterPlain.rcs.lookup urlSecond.host = some clientPlain :=
  getClient_second_call_returns_cached parseTwo fsNone emptyState stateAfterPlain
    optsBase optsSecond optsAfterPlain urlPlain urlSecond clientPlain
    (by decide) (by decide) (by decide) (by decide) (by decide)

/-- C2 counterexample: with the unsynchronized check-then-insert of lines
70 and 145-146, the interleaving check1-check2-insert1-insert2 of two
first-time calls for the same `host:port` constructs two distinct client
handles (construction counter 2) and hands each caller a different one,
refuting "exactly one client handle is constructed and registered, and
every caller receives that single handle". -/
theorem race_interleaved_calls_construct_two_clients :
    runSched "h:6379" clientPlain.options clientPlain.options
        [true, false, true, false]
        { rcs := [], nextId := 0, t1 := .start, t2 := .start } =
      { rcs := [("h:6379", { id := 1, options := clientPlain.options }),
                ("h:6379", { id := 0, options := clientPlain.options })],
        nextId := 2,
        t1 := .finished { id := 0, options := clientPlain.options } true,
        t2 := .finished { id := 1, options := clientPlain.options } true } ∧
    ({ id := 0, options := clientPlain.options } : Client)
      ≠ { id := 1, options := clientPlain.options } := by
  decide

/-- C2 amended: when the two calls are serialized (one completes before
the other reads the registry), exactly one client handle is constructed,
it is registered, and both callers receive it; under a genuinely
interleaved schedule both calls may construct (see the counterexample),
with the last registry write winning. -/
theorem race_serialized_calls_single_construction (host : String)
    (f1 f2 : RedisLibOptions) (rcs0 : List (String × Client)) (n0 : Nat)
    (hfresh : rcs0.lookup host = none) :
    runSched host f1 f2 [true, true, false, false]
        { rcs := rcs0, nextId := n0, t1 := .start, t2 := .start } =
      { rcs := (host, { id := n0, options := f1 }) :: rcs0,
        nextId := n0 + 1,
        t1 := .finished { id := n0, options := f1 } true,
        t2 := .finished { id := n0, options := f1 } false } := by
  simp [runSched, raceStep, threadStep, hfresh, List.lookup]

/-- C2 witness: the serialized schedule on a fresh registry. -/
theorem race_serialized_calls_single_construction_witness :
    runSched "h:6379" clientPlain.options clientPlain.options
        [true, true, false, false]
        { rcs := [], nextId := 0, t1 := .start, t2 := .start } =
      { rcs := [("h:6379", { id := 0, options := clientPlain.options })],
        nextId := 0 + 1,
        t1 := .finished { id := 0, options := clientPlain.options } true,
        t2 := .finished { id := 0, options := clientPlain.options } false } :=
  race_serialized_calls_single_construction "h:6379" clientPlain.options
    clientPlain.options [] 0 (by decide)

/-- C3 amended: `GetClient` does not leave the caller's `Options`
unchanged in general. The fields `RedisURL`, `RedisCAFile`,
`ClientPKFile`, `ClientCertFile`, `DialTimeout` and `TCPKeepAlive` are
never modified, and a cache-hit call leaves the `Options` fully unchanged;
but a call that constructs a client writes through the caller's pointer:
`PoolSize` becomes 3 when it was 0, the dial function is stored in
`Dialer`, the parsed database index in `DB`, and `Password` is overwritten
exactly when the URL carries userinfo. -/
theorem getClient_mutates_only_documented_fields
    (parse : String → Except String URL) (fs : FS) (st : GoState)
    (opts : Options) (u : URL)
    (res : Except GetClientErr Client × GoState × Options)
    (hp : parse opts.redisURL = Except.ok u)
    (hres : getClient parse fs st opts = res) :
    (res.2.2.redisURL = opts.redisURL ∧
     res.2.2.redisCAFile = opts.redisCAFile ∧
     res.2.2.clientPKFile = opts.clientPKFile ∧
     res.2.2.clientCertFile = opts.clientCertFile ∧
     res.2.2.dialTimeout = opts.dialTimeout ∧
     res.2.2.tcpKeepAlive = opts.tcpKeepAlive) ∧
    ((st.rcs.lookup u.host).isSome = true → res.2.2 = opts) ∧
    (st.rcs.lookup u.host = none → resultOk res = true →
      (res.2.2.options.poolSize =
         (if opts.options.poolSize = 0 then 3 else opts.options.poolSize) ∧
       (res.2.2.options.dialer).isSome = true ∧
       res.2.2.options.db = dbFromPath u.path ∧
       res.2.2.options.password =
         (match u.user with
          | some ui => ui.password.getD ""
          | none => opts.options.password))) := by
  subst hres
  by_cases hh : u.host = ""
  · rw [getClient_empty_host parse fs st opts u hp hh]
    refine ⟨by simp, by simp, fun _ hok => ?_⟩
    simp [resultOk] at hok
  · cases hl : st.rcs.lookup u.host with
    | some rc =>
      rw [getClient_hit parse fs st opts u rc hp hh hl]
      exact ⟨by simp, fun _ => rfl, fun hn _ => by simp at hn⟩
    | none =>
      have frameGoal : ∀ df : DialFunc,
        ((finishClient st u (dbFromPath u.path) df (poolDefault opts)).2.2.redisURL = opts.redisURL ∧
         (finishClient st u (dbFromPath u.path) df (poolDefault opts)).2.2.redisCAFile = opts.redisCAFile ∧
         (finishClient st u (dbFromPath u.path) df (poolDefault opts)).2.2.clientPKFile = opts.clientPKFile ∧
         (finishClient st u (dbFromPath u.path) df (poolDefault opts)).2.2.clientCertFile = opts.clientCertFile ∧
         (finishClient st u (dbFromPath u.path) df (poolDefault opts)).2.2.dialTimeout = opts.dialTimeout ∧
         (finishClient st u (dbFromPath u.path) df (poolDefault opts)).2.2.tcpKeepAlive = opts.tcpKeepAlive) ∧
        ((none : Option Client).isSome = true →
          (finishClient st u (dbFromPath u.path) df (poolDefault opts)).2.2 = opts) ∧
        ((none : Option Client) = none →
          resultOk (finishClient st u (dbFromPath u.path) df (poolDefault opts)) = true →
          ((finishClient st u (dbFromPath u.path) df (poolDefault opts)).2.2.options.poolSize =
             (if opts.options.poolSize = 0 then 3 else opts.options.poolSize) ∧
           ((finishClient st u (dbFromPath u.path) df (poolDefault opts)).2.2.options.dialer).isSome = true ∧
           (finishClient st u (dbFromPath u.path) df (poolDefault opts)).2.2.options.db = dbFromPath u.path ∧
           (finishClient st u (dbFromPath u.path) df (poolDefault opts)).2.2.options.password =
             (match u.user with
              | some ui => ui.password.getD ""
              | none => opts.options.password))) := by
        intro df
        obtain ⟨f1, f2, f3, f4, f5, f6, fopt⟩ :=
          finishClient_frame st u (dbFromPath u.path) df (poolDefault opts)
        obtain ⟨p1, p2, p3, p4, p5, p6, p7, p8, p9⟩ := poolDefault_frame opts
        refine ⟨⟨by rw [f1, p1], by rw [f2, p2], by rw [f3, p3], by rw [f4, p4],
                 by rw [f5, p5], by rw [f6, p6]⟩,
                fun hsome => by simp at hsome,
                fun _ _ => ⟨?_, ?_, ?_, ?_⟩⟩
        · rw [fopt, finishOptions_poolSize, poolDefault_poolSize]
        · rw [fopt, finishOptions_dialer]
          simp
        · rw [fopt, finishOptions_db]
        · rw [fopt, finishOptions_password]
          cases hu : u.user with
          | some ui => simp
          | none => simp [p9]
      cases hs : equalFold u.scheme "rediss" with
      | false =>
        rw [getClient_plain parse fs st opts u hp hh hl hs]
        exact frameGoal (DialFunc.plain (baseDialerOf (poolDefault opts)) u.host)
      | true =>
        cases hcfg : buildTLSConfig fs (poolDefault opts) with
        | error e =>
          rw [getClient_tls_error parse fs st opts u e hp hh hl hs hcfg]
          obtain ⟨p1, p2, p3, p4, p5, p6, p7, p8, p9⟩ := poolDefault_frame opts
          refine ⟨⟨p1, p2, p3, p4, p5, p6⟩,
                  fun hsome => by simp at hsome,
                  fun _ hok => ?_⟩
          simp [resultOk] at hok
        | ok cfg =>
          rw [getClient_tls parse fs st opts u cfg hp hh hl hs hcfg]
          exact frameGoal (DialFunc.tls (baseDialerOf (poolDefault opts)) u.host cfg)

/-- C3 witness: a constructing call on the base options. -/
theorem getClient_mutates_only_documented_fields_witness :
    ((getClient (constParse urlPlain) fsNone emptyState optsBase).2.2.redisURL = optsBase.redisURL ∧
     (getClient (constParse urlPlain) fsNone emptyState optsBase).2.2.redisCAFile = optsBase.redisCAFile ∧
     (getClient (constParse urlPlain) fsNone emptyState optsBase).2.2.clientPKFile = optsBase.clientPKFile ∧
     (getClient (constParse urlPlain) fsNone emptyState optsBase).2.2.clientCertFile = optsBase.clientCertFile ∧
     (getClient (constParse urlPlain) fsNone emptyState optsBase).2.2.dialTimeout = optsBase.dialTimeout ∧
     (getClient (constParse urlPlain) fsNone emptyState optsBase).2.2.tcpKeepAlive = optsBase.tcpKeepAlive) ∧
    ((emptyState.rcs.lookup urlPlain.host).isSome = true →
      (getClient (constParse urlPlain) fsNone emptyState optsBase).2.2 = optsBase) ∧
    (emptyState.rcs.lookup urlPlain.host = none →
      resultOk (getClient (constParse urlPlain) fsNone emptyState optsBase) = true →
      ((getClient (constParse urlPlain) fsNone emptyState optsBase).2.2.options.poolSize =
         (if optsBase.options.poolSize = 0 then 3 else optsBase.options.poolSize) ∧
       ((getClient (constParse urlPlain) fsNone emptyState optsBase).2.2.options.dialer).isSome = true ∧
       (getClient (constParse urlPlain) fsNone emptyState optsBase).2.2.options.db = dbFromPath urlPlain.path ∧
       (getClient (constParse urlPlain) fsNone emptyState optsBase).2.2.options.password =
         (match urlPlain.user with
          | some ui => ui.password.getD ""
          | none => optsBase.options.password))) :=
  getClient_mutates_only_documented_fields (constParse urlPlain) fsNone emptyState
    optsBase urlPlain (getClient (constParse urlPlain) fsNone emptyState optsBase)
    (by decide) rfl

/-- C3 counterexample: a successful constructing call leaves the caller's
options different from what was passed in (PoolSize defaulted to 3, Dialer
and DB written), refuting "the caller-supplied Options struct is left
unchanged by the call". -/
theorem getClient_changes_caller_options :
    (getClient (constParse urlPlain) fsNone emptyState optsBase).2.2 ≠ optsBase := by
  decide

/-- C4 amended: for every constructing call, the database index is taken
from the final path segment of the URL: if the path is non-empty and the
segment parses per `strconv.Atoi` — which accepts a sign, so a negative
integer is accepted and used — the parsed value is the client's database
index; if the segment is unparsable the index falls back to 0 without
aborting the call; if the path is absent the index is 0. The resulting
index is an integer, but not necessarily ≥ 0. -/
theorem getClient_db_from_final_path_segment
    (parse : String → Except String URL) (fs : FS) (st : GoState)
    (opts : Options) (u : URL) (rc : Client) (st' : GoState) (o' : Options)
    (hp : parse opts.redisURL = Except.ok u)
    (hfresh : st.rcs.lookup u.host = none)
    (hok : getClient parse fs st opts = (.ok rc, st', o')) :
    rc.options.db =
      (if u.path.length > 0 then (atoi (pathSplitFile u.path)).getD 0 else 0) := by
  obtain ⟨hplain, htls⟩ :=
    getClient_construct_shape parse fs st opts u rc st' o' hp hfresh hok
  cases hs : equalFold u.scheme "rediss" with
  | false => rw [hplain hs, finishOptions_db, dbFromPath]
  | true =>
    obtain ⟨cfg, _, hopt⟩ := htls hs
    rw [hopt, finishOptions_db, dbFromPath]

/-- C4 witness: `/2` selects database 2. -/
theorem getClient_db_from_final_path_segment_witness :
    clientDB2.options.db =
      (if urlDB2.path.length > 0 then (atoi (pathSplitFile urlDB2.path)).getD 0 else 0) :=
  getClient_db_from_final_path_segment (constParse urlDB2) fsNone emptyState
    optsBase urlDB2 clientDB2
    { rcs := [("h:6379", clientDB2)], nextId := 1 }
    { optsBase with options := clientDB2.options }
    (by decide) (by decide) (by decide)

/-- C4 counterexample: a URL path whose final segment is "-1" parses under `strconv.Atoi` and
yields database index -1, refuting "the resulting database index is
always an integer ≥ 0". -/
theorem getClient_accepts_negative_db_index :
    dbOf (getClient (constParse urlNegDB) fsNone emptyState optsBase) = some (-1) ∧
    (-1 : Int) < 0 := by
  decide

/-- C5 amended: only the password is extracted from the URL userinfo and
passed to the client constructor — the username is ignored (the redis.v5
constructor takes no username). When userinfo is present, the client's
password is the URL password (the empty string when the userinfo has no
password); when userinfo is absent, the client keeps whatever password the
caller had set in the options. -/
theorem getClient_extracts_password_only
    (parse : String → Except String URL) (fs : FS) (st : GoState)
    (opts : Options) (u : URL) (rc : Client) (st' : GoState) (o' : Options)
    (hp : parse opts.redisURL = Except.ok u)
    (hfresh : st.rcs.lookup u.host = none)
    (hok : getClient parse fs st opts = (.ok rc, st', o')) :
    rc.options.password =
      (match u.user with
       | some ui => ui.password.getD ""
       | none => opts.options.password) := by
  obtain ⟨hplain, htls⟩ :=
    getClient_construct_shape parse fs st opts u rc st' o' hp hfresh hok
  obtain ⟨_, _, _, _, _, _, _, _, p9⟩ := poolDefault_frame opts
  cases hs : equalFold u.scheme "rediss" with
  | false =>
    rw [hplain hs, finishOptions_password]
    cases hu : u.user with
    | some ui => simp
    | none => simp [p9]
  | true =>
    obtain ⟨cfg, _, hopt⟩ := htls hs
    rw [hopt, finishOptions_password]
    cases hu : u.user with
    | some ui => simp
    | none => simp [p9]

/-- C5 witness: userinfo alice:pw yields the client password pw. -/
theorem getClient_extracts_password_only_witness :
    clientAlice.options.password =
      (match urlUserAlice.user with
       | some ui => ui.password.getD ""
       | none => optsBase.options.password) :=
  getClient_extracts_password_only (constParse urlUserAlice) fsNone emptyState
    optsBase urlUserAlice clientAlice
    { rcs := [("h:6379", clientAlice)], nextId := 1 }
    { optsBase with options := clientAlice.options }
    (by decide) (by decide) (by decide)

/-- C5 counterexample: two calls whose URLs differ only in the username
produce byte-identical results (the username reaches nothing), refuting
"both the username and the password ... become part of the authentication
parameters passed to the client constructor". -/
theorem getClient_result_independent_of_username :
    getClient (constParse urlUserAlice) fsNone emptyState optsBase
      = getClient (constParse urlUserBob) fsNone emptyState optsBase ∧
    urlUserAlice ≠ urlUserBob := by
  decide

/-- C6: for every encrypted-scheme constructing call whose root-CA step
succeeds, a client TLS identity is attached if and only if both
`ClientPKFile` and `ClientCertFile` are supplied: with either missing the
call succeeds with no client certificate (silent skip, no error); with
both supplied the certificate list is exactly the loaded pair when it
loads, and when the pair fails to load the call returns the key-pair
`ConfigError` with the registry (and the whole package state) left
unmodified, so no client handle is created. -/
theorem getClient_client_auth_both_or_neither
    (parse : String → Except String URL) (fs : FS) (st : GoState)
    (opts : Options) (u : URL)
    (hp : parse opts.redisURL = Except.ok u)
    (hh : ¬ u.host = "")
    (hfresh : st.rcs.lookup u.host = none)
    (hs : equalFold u.scheme "rediss" = true)
    (hca : opts.redisCAFile = "" ∨
           (fs.loadCertificateFromFile opts.redisCAFile).isSome = true) :
    ((opts.clientPKFile = "" ∨ opts.clientCertFile = "") →
       tlsCertsOf (getClient parse fs st opts) = some []) ∧
    (¬ opts.clientPKFile = "" → ¬ opts.clientCertFile = "" →
       tlsCertsOf (getClient parse fs st opts) =
         (fs.loadX509KeyPair opts.clientCertFile opts.clientPKFile).map
           (fun kp => [kp])) ∧
    (¬ opts.clientPKFile = "" → ¬ opts.clientCertFile = "" →
       fs.loadX509KeyPair opts.clientCertFile opts.clientPKFile = none →
       getClient parse fs st opts = (.error .keyPairError, st, poolDefault opts)) := by
  have hcs : ∃ cfg1, caStep fs opts = some cfg1 ∧ cfg1.certificates = [] := by
    rcases hca with hca | hca
    · exact ⟨_, caStep_empty fs opts hca, rfl⟩
    · by_cases hne : opts.redisCAFile = ""
      · exact ⟨_, caStep_empty fs opts hne, rfl⟩
      · rw [Option.isSome_iff_exists] at hca
        obtain ⟨c, hc⟩ := hca
        exact ⟨_, caStep_loaded fs opts c hne hc, rfl⟩
  obtain ⟨cfg1, hcs1, hcerts1⟩ := hcs
  refine ⟨?_, ?_, ?_⟩
  · intro hpair
    have hb : buildTLSConfig fs (poolDefault opts) = .ok cfg1 :=
      buildTLSConfig_ok fs (poolDefault opts) cfg1 cfg1
        (by rw [caStep_poolDefault]; exact hcs1)
        (by rw [pairStep_poolDefault]; exact pairStep_skip fs opts cfg1 hpair)
    rw [getClient_tls parse fs st opts u cfg1 hp hh hfresh hs hb,
      tlsCertsOf_finish, hcerts1]
  · intro hpk hcert
    cases hkp : fs.loadX509KeyPair opts.clientCertFile opts.clientPKFile with
    | some kp =>
      have hb : buildTLSConfig fs (poolDefault opts) =
          .ok { cfg1 with certificates := [kp] } :=
        buildTLSConfig_ok fs (poolDefault opts) cfg1 _
          (by rw [caStep_poolDefault]; exact hcs1)
          (by rw [pairStep_poolDefault]
              exact pairStep_loaded fs opts cfg1 kp hpk hcert hkp)
      rw [getClient_tls parse fs st opts u _ hp hh hfresh hs hb, tlsCertsOf_finish]
      simp
    | none =>
      have hb : buildTLSConfig fs (poolDefault opts) = .error .keyPairError :=
        buildTLSConfig_pair_err fs (poolDefault opts) cfg1
          (by rw [caStep_poolDefault]; exact hcs1)
          (by rw [pairStep_poolDefault]
              exact pairStep_fail fs opts cfg1 hpk hcert hkp)
      rw [getClient_tls_error parse fs st opts u _ hp hh hfresh hs hb]
      simp [tlsCertsOf, dialFuncOf]
  · intro hpk hcert hkp
    have hb : buildTLSConfig fs (poolDefault opts) = .error .keyPairError :=
      buildTLSConfig_pair_err fs (poolDefault opts) cfg1
        (by rw [caStep_poolDefault]; exact hcs1)
        (by rw [pairStep_poolDefault]
            exact pairStep_fail fs opts cfg1 hpk hcert hkp)
    exact getClient_tls_error parse fs st opts u _ hp hh hfresh hs hb

/-- C7: for every encrypted-scheme constructing call whose client-pair
step cannot fail, the TLS configuration's root trust set is `RootCAs =
nil` (system default roots only) when no CA file is supplied, and exactly
the single-certificate pool parsed from the CA file when one is supplied;
when loading that file fails the call returns the CA `ConfigError` with
the state unmodified — it never falls back to system trust. -/
theorem getClient_custom_ca_sole_trust_root
    (parse : String → Except String URL) (fs : FS) (st : GoState)
    (opts : Options) (u : URL)
    (hp : parse opts.redisURL = Except.ok u)
    (hh : ¬ u.host = "")
    (hfresh : st.rcs.lookup u.host = none)
    (hs : equalFold u.scheme "rediss" = true)
    (hpair : opts.clientPKFile = "" ∨ opts.clientCertFile = "" ∨
             (fs.loadX509KeyPair opts.clientCertFile opts.clientPKFile).isSome = true) :
    (opts.redisCAFile = "" → rootCAsOf (getClient parse fs st opts) = some none) ∧
    (¬ opts.redisCAFile = "" →
       rootCAsOf (getClient parse fs st opts) =
         (fs.loadCertificateFromFile opts.redisCAFile).map
           (fun c => some { cert := c })) ∧
    (¬ opts.redisCAFile = "" →
       fs.loadCertificateFromFile opts.redisCAFile = none →
       getClient parse fs st opts = (.error .caFileError, st, poolDefault opts)) := by
  have hps : ∀ cfg1 : TLSConfig,
      ∃ cfg2, pairStep fs opts cfg1 = some cfg2 ∧ cfg2.rootCAs = cfg1.rootCAs := by
    intro cfg1
    rcases hpair with h | h | h
    · exact ⟨cfg1, pairStep_skip fs opts cfg1 (Or.inl h), rfl⟩
    · exact ⟨cfg1, pairStep_skip fs opts cfg1 (Or.inr h), rfl⟩
    · by_cases hpk : opts.clientPKFile = ""
      · exact ⟨cfg1, pairStep_skip fs opts cfg1 (Or.inl hpk), rfl⟩
      · by_cases hcert : opts.clientCertFile = ""
        · exact ⟨cfg1, pairStep_skip fs opts cfg1 (Or.inr hcert), rfl⟩
        · rw [Option.isSome_iff_exists] at h
          obtain ⟨kp, hkp⟩ := h
          exact ⟨_, pairStep_loaded fs opts cfg1 kp hpk hcert hkp, rfl⟩
  refine ⟨?_, ?_, ?_⟩
  · intro hcae
    obtain ⟨cfg2, hp2, hroot⟩ :=
      hps { sessionCacheCapacity := 1000, rootCAs := none, certificates := [] }
    have hb : buildTLSConfig fs (poolDefault opts) = .ok cfg2 :=
      buildTLSConfig_ok fs (poolDefault opts) _ cfg2
        (by rw [caStep_poolDefault]; exact caStep_empty fs opts hcae)
        (by rw [pairStep_poolDefault]; exact hp2)
    rw [getClient_tls parse fs st opts u cfg2 hp hh hfresh hs hb,
      rootCAsOf_finish, hroot]
  · intro hcane
    cases hl : fs.loadCertificateFromFile opts.redisCAFile with
    | some c =>
      obtain ⟨cfg2, hp2, hroot⟩ :=
        hps { sessionCacheCapacity := 1000, rootCAs := some { cert := c },
              certificates := [] }
      have hb : buildTLSConfig fs (poolDefault opts) = .ok cfg2 :=
        buildTLSConfig_ok fs (poolDefault opts) _ cfg2
          (by rw [caStep_poolDefault]; exact caStep_loaded fs opts c hcane hl)
          (by rw [pairStep_poolDefault]; exact hp2)
      rw [getClient_tls parse fs st opts u cfg2 hp hh hfresh hs hb,
        rootCAsOf_finish, hroot]
      simp
    | none =>
      have hb : buildTLSConfig fs (poolDefault opts) = .error .caFileError :=
        buildTLSConfig_ca_err fs (poolDefault opts)
          (by rw [caStep_poolDefault]; exact caStep_fail fs opts hcane hl)
      rw [getClient_tls_error parse fs st opts u _ hp hh hfresh hs hb]
      simp [rootCAsOf, dialFuncOf]
  · intro hcane hl
    have hb : buildTLSConfig fs (poolDefault opts) = .error .caFileError :=
      buildTLSConfig_ca_err fs (poolDefault opts)
        (by rw [caStep_poolDefault]; exact caStep_fail fs opts hcane hl)
    exact getClient_tls_error parse fs st opts u _ hp hh hfresh hs hb

/-- C6 witness: both pair files supplied and loadable on `fsSample`. -/
theorem getClient_client_auth_both_or_neither_witness :
    ((optsPair.clientPKFile = "" ∨ optsPair.clientCertFile = "") →
       tlsCertsOf (getClient (constParse urlTLS) fsSample emptyState optsPair)
         = some []) ∧
    (¬ optsPair.clientPKFile = "" → ¬ optsPair.clientCertFile = "" →
       tlsCertsOf (getClient (constParse urlTLS) fsSample emptyState optsPair) =
         (fsSample.loadX509KeyPair optsPair.clientCertFile
            optsPair.clientPKFile).map (fun kp => [kp])) ∧
    (¬ optsPair.clientPKFile = "" → ¬ optsPair.clientCertFile = "" →
       fsSample.loadX509KeyPair optsPair.clientCertFile optsPair.clientPKFile
         = none →
       getClient (constParse urlTLS) fsSample emptyState optsPair
         = (.error .keyPairError, emptyState, poolDefault optsPair)) :=
  getClient_client_auth_both_or_neither (constParse urlTLS) fsSample emptyState
    optsPair urlTLS (by decide) (by decide) (by decide) (by decide)
    (Or.inl (by decide))

/-- C7 witness: CA file "ca.pem" supplied and loadable on `fsSample`. -/
theorem getClient_custom_ca_sole_trust_root_witness :
    (optsCA.redisCAFile = "" →
       rootCAsOf (getClient (constParse urlTLS) fsSample emptyState optsCA)
         = some none) ∧
    (¬ optsCA.redisCAFile = "" →
       rootCAsOf (getClient (constParse urlTLS) fsSample emptyState optsCA) =
         (fsSample.loadCertificateFromFile optsCA.redisCAFile).map
           (fun c => some { cert := c })) ∧
    (¬ optsCA.redisCAFile = "" →
       fsSample.loadCertificateFromFile optsCA.redisCAFile = none →
       getClient (constParse urlTLS) fsSample emptyState optsCA
         = (.error .caFileError, emptyState, poolDefault optsCA)) :=
  getClient_custom_ca_sole_trust_root (constParse urlTLS) fsSample emptyState
    optsCA urlTLS (by decide) (by decide) (by decide) (by decide)
    (Or.inl (by decide))

/-- C8: for every constructing call, the dial function performs a TLS
handshake exactly when `strings.EqualFold(u.Scheme, "rediss")` holds — a
case-insensitive comparison of the URL scheme against the encrypted
variant — and for every non-encrypted scheme the dial function is the
plain TCP dialer for the URL's `host:port`, which never attempts a TLS
handshake. -/
theorem getClient_plain_scheme_plain_dialer
    (parse : String → Except String URL) (fs : FS) (st : GoState)
    (opts : Options) (u : URL) (rc : Client) (st' : GoState) (o' : Options)
    (hp : parse opts.redisURL = Except.ok u)
    (hfresh : st.rcs.lookup u.host = none)
    (hok : getClient parse fs st opts = (.ok rc, st', o')) :
    (rc.options.dialer.map DialFunc.isTLS) = some (equalFold u.scheme "rediss") ∧
    (equalFold u.scheme "rediss" = false →
      rc.options.dialer = some (DialFunc.plain (baseDialerOf opts) u.host)) := by
  obtain ⟨hplain, htls⟩ :=
    getClient_construct_shape parse fs st opts u rc st' o' hp hfresh hok
  cases hs : equalFold u.scheme "rediss" with
  | false =>
    rw [hplain hs, finishOptions_dialer, baseDialerOf_poolDefault]
    exact ⟨rfl, fun _ => rfl⟩
  | true =>
    obtain ⟨cfg, _, hopt⟩ := htls hs
    rw [hopt, finishOptions_dialer]
    exact ⟨rfl, fun hfa => by simp at hfa⟩

/-- C8 witness: the plain-scheme call on `urlPlain`. -/
theorem getClient_plain_scheme_plain_dialer_witness :
    (clientPlain.options.dialer.map DialFunc.isTLS)
      = some (equalFold urlPlain.scheme "rediss") ∧
    (equalFold urlPlain.scheme "rediss" = false →
      clientPlain.options.dialer
        = some (DialFunc.plain (baseDialerOf optsBase) urlPlain.host)) :=
  getClient_plain_scheme_plain_dialer (constParse urlPlain) fsNone emptyState
    optsBase urlPlain clientPlain stateAfterPlain optsAfterPlain
    (by decide) (by decide) (by decide)

/-- C9: for every constructing call, the base TCP dialer captured by the
dial function has `Timeout` equal to the caller's dial timeout, replaced
by 30 seconds when that value is zero, and `KeepAlive` equal to the
caller's TCP keepalive duration (zero meaning keepalive disabled, per the
field's documentation). -/
theorem getClient_dialer_timeout_keepalive
    (parse : String → Except String URL) (fs : FS) (st : GoState)
    (opts : Options) (u : URL) (rc : Client) (st' : GoState) (o' : Options)
    (hp : parse opts.redisURL = Except.ok u)
    (hfresh : st.rcs.lookup u.host = none)
    (hok : getClient parse fs st opts = (.ok rc, st', o')) :
    (rc.options.dialer.map DialFunc.baseDialer) = some (baseDialerOf opts) ∧
    (baseDialerOf opts).keepAlive = opts.tcpKeepAlive ∧
    (opts.dialTimeout = 0 → (baseDialerOf opts).timeout = thirtySeconds) ∧
    (¬ opts.dialTimeout = 0 → (baseDialerOf opts).timeout = opts.dialTimeout) := by
  obtain ⟨hplain, htls⟩ :=
    getClient_construct_shape parse fs st opts u rc st' o' hp hfresh hok
  refine ⟨?_, ?_, fun h0 => ?_, fun h0 => ?_⟩
  · cases hs : equalFold u.scheme "rediss" with
    | false =>
      rw [hplain hs, finishOptions_dialer, baseDialerOf_poolDefault]
      rfl
    | true =>
      obtain ⟨cfg, _, hopt⟩ := htls hs
      rw [hopt, finishOptions_dialer, baseDialerOf_poolDefault]
      rfl
  · by_cases h : opts.dialTimeout = 0 <;> simp [baseDialerOf, h]
  · simp [baseDialerOf, h0]
  · simp [baseDialerOf, h0]

/-- C9 witness: zero dial timeout is defaulted to 30 seconds and zero
keepalive is passed through. -/
theorem getClient_dialer_timeout_keepalive_witness :
    (clientPlain.options.dialer.map DialFunc.baseDialer)
      = some (baseDialerOf optsBase) ∧
    (baseDialerOf optsBase).keepAlive = optsBase.tcpKeepAlive ∧
    (optsBase.dialTimeout = 0 → (baseDialerOf optsBase).timeout = thirtySeconds) ∧
    (¬ optsBase.dialTimeout = 0 →
      (baseDialerOf optsBase).timeout = optsBase.dialTimeout) :=
  getClient_dialer_timeout_keepalive (constParse urlPlain) fsNone emptyState
    optsBase urlPlain clientPlain stateAfterPlain optsAfterPlain
    (by decide) (by decide) (by decide)

/-- C10: for every first-time call whose URL has a non-empty host and a
scheme that is not (case-insensitively) "rediss" — including schemes such
as "http" or the empty scheme — `GetClient` does not reject the scheme:
the call succeeds and silently builds an unencrypted plain-TCP client for
that host. -/
theorem getClient_accepts_any_nonencrypted_scheme
    (parse : String → Except String URL) (fs : FS) (st : GoState)
    (opts : Options) (u : URL)
    (hp : parse opts.redisURL = Except.ok u)
    (hh : ¬ u.host = "")
    (hfresh : st.rcs.lookup u.host = none)
    (hs : equalFold u.scheme "rediss" = false) :
    resultOk (getClient parse fs st opts) = true ∧
    dialFuncOf (getClient parse fs st opts) =
      some (DialFunc.plain (baseDialerOf opts) u.host) := by
  rw [getClient_plain parse fs st opts u hp hh hfresh hs]
  exact ⟨resultOk_finish _ _ _ _ _,
    by rw [dialFuncOf_finish, baseDialerOf_poolDefault]⟩

/-- C10 witness: the schemes "http" and "" are both accepted and produce
plain-TCP clients. -/
theorem getClient_accepts_any_nonencrypted_scheme_witness :
    (resultOk (getClient (constParse urlHttp) fsNone emptyState optsBase) = true ∧
     dialFuncOf (getClient (constParse urlHttp) fsNone emptyState optsBase) =
       some (DialFunc.plain (baseDialerOf optsBase) urlHttp.host)) ∧
    (resultOk (getClient (constParse urlNoScheme) fsNone emptyState optsBase) = true ∧
     dialFuncOf (getClient (constParse urlNoScheme) fsNone emptyState optsBase) =
       some (DialFunc.plain (baseDialerOf optsBase) urlNoScheme.host)) :=
  ⟨getClient_accepts_any_nonencrypted_scheme (constParse urlHttp) fsNone
     emptyState optsBase urlHttp (by decide) (by decide) (by decide) (by decide),
   getClient_accepts_any_nonencrypted_scheme (constParse urlNoScheme) fsNone
     emptyState optsBase urlNoScheme (by decide) (by decide) (by decide) (by decide)⟩

end Tlsredis
